import Mathlib

/-!
Shallow embedding of the squid-sql relational evaluation engine
(`src/v1.py`): the immutable table representation, column resolution,
cross-join merge, typed predicate evaluation (column-to-literal and
column-to-column filters), projection with rename, and aliasing.
Python exceptions are modelled with `Except`; Python dicts keyed by
column descriptors are modelled as association lists with dict update
semantics; machine values are `Int`/`String` as in the source.
-/

/-- Declared column types. Source: `SUPPORTED_COLUMN_TYPES = ['int', 'str']`. -/
inductive ColType
  | int
  | str
deriving DecidableEq, Repr

/-- Runtime scalar values held in rows: Python ints and strings. -/
inductive Value
  | int (n : Int)
  | str (s : String)
deriving DecidableEq, Repr

/-- Comparison operators appearing in queries. Source keys of `OPERATOR_FUNCS`:
`=`, `!=`, `>`, `>=`, `<`, `<=`. -/
inductive Op
  | eq
  | ne
  | gt
  | ge
  | lt
  | le
deriving DecidableEq, Repr

/-- Source: `ColumnConfig = namedtuple('ColumnConfig', ['table', 'name', 'type', 'index'])`. -/
structure ColumnConfig where
  table : String
  name : String
  type : ColType
  index : Nat
deriving DecidableEq, Repr

/-- An unresolved column reference `column_ref = <dict with keys table, name>`;
the query format makes `table` optional (JSON null modelled as `none`). -/
structure ColumnRef where
  table : Option String
  name : String
deriving DecidableEq, Repr

/-- A `term` of the query language: either a column reference dict
(single key `column`) or a tagged literal dict (single key `lit_int` or
`lit_str`). -/
inductive Term
  | column (ref : ColumnRef)
  | litInt (n : Int)
  | litStr (s : String)
deriving DecidableEq, Repr

/-- Models the Python test `'column' in term` (dict key membership). -/
def Term.isColumn : Term → Bool
  | .column _ => true
  | _ => false

/-- Models the source's literal extraction in
`apply_column_to_literal_where_query`: the key `lit_` followed by the
column's declared type is looked up in the literal term; `none` models
the key being absent (which the source turns into a type-mismatch
failure). -/
def Term.getLit : Term → ColType → Option Value
  | .litInt n, .int => some (.int n)
  | .litStr s, .str => some (.str s)
  | _, _ => none

/-- Error kinds raised as `SquidError` by the engine, abstracted from the
message strings; payloads keep the data the messages interpolate where a
claim depends on it.  `keyError` models an uncaught Python `KeyError`
from accessing a `column` key on a non-column term. -/
inductive SquidErr
  | columnNotFound
  | ambiguousColumn (foundTables : String)
  | typeMismatchLiteral (colName : String) (colType : ColType) (term : Term)
  | typeMismatchColumns (leftName : String) (leftType : ColType)
      (rightName : String) (rightType : ColType)
  | unsupportedOperator (op : Op) (ty : ColType)
  | duplicateSelectName (name : String)
  | givenColumnToColumn
  | malformedWhere
  | keyError
deriving DecidableEq, Repr

/-- Classifier: is the error one of the two type-mismatch kinds. -/
def SquidErr.isTypeMismatch : SquidErr → Bool
  | .typeMismatchLiteral _ _ _ => true
  | .typeMismatchColumns _ _ _ _ => true
  | _ => false

/-- Classifier: is the error the unsupported-operator kind. -/
def SquidErr.isUnsupportedOp : SquidErr → Bool
  | .unsupportedOperator _ _ => true
  | _ => false

/-- Source: `SUPPORTED_OPS_BY_COLUMN_TYPE`. -/
def supportedOps : ColType → List Op
  | .int => [.eq, .ne, .gt, .ge, .lt, .le]
  | .str => [.eq, .ne]

/-- Source `equal_to`: Python `==`. On mixed int/str operands Python
returns `False` without raising, as here. -/
def equalTo : Value → Value → Bool
  | .int a, .int b => decide (a = b)
  | .str a, .str b => decide (a = b)
  | _, _ => false

/-- Source `not_equal_to`: Python `!=` (true on mixed-type operands). -/
def notEqualTo : Value → Value → Bool
  | .int a, .int b => decide (a ≠ b)
  | .str a, .str b => decide (a ≠ b)
  | _, _ => true

/-- Source `greater_than`: Python `>`. Python raises `TypeError` on
mixed int/str operands; the data-model invariant (values match their
column's declared type) keeps that case unreachable in the engine, and
the embedding returns `false` there. -/
def greaterThan : Value → Value → Bool
  | .int a, .int b => decide (b < a)
  | .str a, .str b => decide (b < a)
  | _, _ => false

/-- Source `less_than`: Python `<` (same mixed-operand note as `greaterThan`). -/
def lessThan : Value → Value → Bool
  | .int a, .int b => decide (a < b)
  | .str a, .str b => decide (a < b)
  | _, _ => false

/-- Source `greater_than_or_equal_to`, defined compositionally. -/
def greaterThanOrEqualTo (l r : Value) : Bool :=
  greaterThan l r || equalTo l r

/-- Source `less_than_or_equal_to`, defined compositionally. -/
def lessThanOrEqualTo (l r : Value) : Bool :=
  lessThan l r || equalTo l r

/-- Source `OPERATOR_FUNCS` lookup. -/
def operatorFunc : Op → Value → Value → Bool
  | .eq => equalTo
  | .ne => notEqualTo
  | .gt => greaterThan
  | .ge => greaterThanOrEqualTo
  | .lt => lessThan
  | .le => lessThanOrEqualTo

/-- The immutable relation: source `Table.__init__` stores `columns` and `rows`. -/
structure Table where
  columns : List ColumnConfig
  rows : List (List Value)
deriving DecidableEq, Repr

/-- The per-column match test inside `col_config_by_column_ref`: the
qualifier condition is added only when `column_ref['table']` is truthy
(Python: `None` and the empty string are falsy), and the name condition
always applies; `all(conditions)` is their conjunction. -/
def ColumnRef.matchesCol (ref : ColumnRef) (c : ColumnConfig) : Bool :=
  (match ref.table with
   | none => true
   | some t => if t = "" then true else decide (c.table = t))
  && decide (c.name = ref.name)

/-- Source `Table.col_config_by_column_ref` (it reads only `self.columns`):
collect matching columns; zero matches fail, several matches fail naming
the matching tables joined with `|`, one match is returned. -/
def colConfigForCols (columns : List ColumnConfig) (ref : ColumnRef) :
    Except SquidErr ColumnConfig :=
  match columns.filter ref.matchesCol with
  | [] => .error .columnNotFound
  | [c] => .ok c
  | c1 :: c2 :: rest =>
    .error (.ambiguousColumn
      (String.intercalate "|" ((c1 :: c2 :: rest).map (·.table))))

/-- Source method form of `col_config_by_column_ref`. -/
def Table.colConfigByColumnRef (t : Table) (ref : ColumnRef) :
    Except SquidErr ColumnConfig :=
  colConfigForCols t.columns ref

/-- Which side of a `where` expression something sits on. The source
stores the strings `'left'` / `'right'`. -/
inductive Side
  | left
  | right
deriving DecidableEq, Repr

/-- Source namedtuple `ColumnToLiteralWhere` with fields
`op, left, right, column_side, literal_side`. -/
structure ColumnToLiteralWhere where
  op : Op
  left : Term
  right : Term
  column_side : Side
  literal_side : Side
deriving DecidableEq, Repr

/-- Substring containment over character lists: does `pat` occur as a
contiguous run inside the first argument (Python's `in` on strings)? -/
def charListHasSub : List Char → List Char → Bool
  | [], pat => pat.isEmpty
  | h :: t, pat => pat.isPrefixOf (h :: t) || charListHasSub t pat

/-- Models the Python expression `'column' in 'right'` appearing verbatim
in `ColumnToLiteralWhere.__new__`: a substring containment test of the
string `"column"` inside the string literal `"right"` (not the `right`
term). -/
def columnInStrRight : Bool :=
  charListHasSub "right".data "column".data

/-- Source `ColumnToLiteralWhere.__new__`, including its comparison of
`'column'` against the string literal `'right'` in the second and third
branches. -/
def ColumnToLiteralWhere.new (op : Op) (left right : Term) :
    Except SquidErr ColumnToLiteralWhere :=
  if left.isColumn && right.isColumn then
    .error .givenColumnToColumn
  else if left.isColumn && !columnInStrRight then
    .ok ⟨op, left, right, .left, .right⟩
  else if !left.isColumn && columnInStrRight then
    .ok ⟨op, left, right, .right, .left⟩
  else
    .error .malformedWhere

/-- Source property `column_term`: the term sitting on `column_side`. -/
def ColumnToLiteralWhere.columnTerm (w : ColumnToLiteralWhere) : Term :=
  match w.column_side with
  | .left => w.left
  | .right => w.right

/-- Source property `literal_term`: the term sitting on `literal_side`. -/
def ColumnToLiteralWhere.literalTerm (w : ColumnToLiteralWhere) : Term :=
  match w.literal_side with
  | .left => w.left
  | .right => w.right

/-- Source namedtuple `ColumnToColumnWhere` with fields `op, left, right`. -/
structure ColumnToColumnWhere where
  op : Op
  left : Term
  right : Term
deriving DecidableEq, Repr

/-- The column-only prefix of `apply_column_to_literal_where_query`:
resolve the column reference, check the literal's tag against the
column's declared type (raising the type-mismatch error first, exactly
as in the source), then check the operator against the allowed set, and
finally return the per-row comparison the source's loop applies —
`compare(row[index], literal)` when the column sits on the left, and
`compare(literal, row[index])` when it sits on the right.  `row[index]`
is modelled with `getD` (in range whenever the relation invariant
holds). -/
def literalWhereTest (columns : List ColumnConfig) (w : ColumnToLiteralWhere) :
    Except SquidErr (List Value → Bool) :=
  match w.columnTerm with
  | .column columnRef =>
    match colConfigForCols columns columnRef with
    | .error e => .error e
    | .ok colConfig =>
      match w.literalTerm.getLit colConfig.type with
      | none => .error (.typeMismatchLiteral colConfig.name colConfig.type w.literalTerm)
      | some litValue =>
        if (supportedOps colConfig.type).contains w.op then
          match w.column_side with
          | .left =>
            .ok fun row => operatorFunc w.op (row.getD colConfig.index (.int 0)) litValue
          | .right =>
            .ok fun row => operatorFunc w.op litValue (row.getD colConfig.index (.int 0))
        else
          .error (.unsupportedOperator w.op colConfig.type)
  | _ => .error .keyError

/-- Source `Table.apply_column_to_literal_where_query`: the validated
per-row test applied as a stable filter over `self.rows`, keeping
`self.columns`. -/
def Table.applyColumnToLiteralWhereQuery (t : Table) (w : ColumnToLiteralWhere) :
    Except SquidErr Table :=
  (literalWhereTest t.columns w).map fun p =>
    { columns := t.columns, rows := t.rows.filter p }

/-- The column-only prefix of `apply_column_to_column_where_query`:
resolve both references, fail on differing declared types, then on an
operator outside the shared type's allowed set, else return the per-row
comparison `compare(row[left.index], row[right.index])`. -/
def columnColumnWhereTest (columns : List ColumnConfig) (w : ColumnToColumnWhere) :
    Except SquidErr (List Value → Bool) :=
  match w.left, w.right with
  | .column lref, .column rref =>
    match colConfigForCols columns lref with
    | .error e => .error e
    | .ok leftCol =>
      match colConfigForCols columns rref with
      | .error e => .error e
      | .ok rightCol =>
        if leftCol.type = rightCol.type then
          if (supportedOps leftCol.type).contains w.op then
            .ok fun row =>
              operatorFunc w.op (row.getD leftCol.index (.int 0))
                (row.getD rightCol.index (.int 0))
          else
            .error (.unsupportedOperator w.op leftCol.type)
        else
          .error (.typeMismatchColumns leftCol.name leftCol.type
            rightCol.name rightCol.type)
  | _, _ => .error .keyError

/-- Source `Table.apply_column_to_column_where_query`: validated test,
then a stable filter over `self.rows`, keeping `self.columns`. -/
def Table.applyColumnToColumnWhereQuery (t : Table) (w : ColumnToColumnWhere) :
    Except SquidErr Table :=
  (columnColumnWhereTest t.columns w).map fun p =>
    { columns := t.columns, rows := t.rows.filter p }

/-- The closed union of where-query variants dispatched by
`Table.apply_where_query` via `isinstance`. -/
inductive WhereQuery
  | columnToLiteral (w : ColumnToLiteralWhere)
  | columnToColumn (w : ColumnToColumnWhere)
deriving DecidableEq, Repr

/-- Column-only validation of either where-query variant. -/
def whereTest (columns : List ColumnConfig) : WhereQuery →
    Except SquidErr (List Value → Bool)
  | .columnToLiteral w => literalWhereTest columns w
  | .columnToColumn w => columnColumnWhereTest columns w

/-- Source `Table.apply_where_query` dispatch. -/
def Table.applyWhereQuery (t : Table) : WhereQuery → Except SquidErr Table
  | .columnToLiteral w => t.applyColumnToLiteralWhereQuery w
  | .columnToColumn w => t.applyColumnToColumnWhereQuery w

/-- Source `Table.apply_as_exp`: `_replace(table=as_name)` on every
column; rows untouched. -/
def Table.applyAsExp (t : Table) (asName : String) : Table :=
  { columns := t.columns.map fun c => { c with table := asName },
    rows := t.rows }

/-- One `select` entry: the column reference under
`select_query['source']['column']` and the optional rename under
`select_query['as']` (JSON null modelled as `none`; the source tests it
for Python truthiness, so an empty-string rename is ignored). -/
structure SelectQuery where
  column : ColumnRef
  asName : Option String
deriving DecidableEq, Repr

/-- The display name the source computes for one select entry:
`col_name = col_config.name`, overridden by `select_query['as']` when
that is truthy. -/
def selectDisplayName (q : SelectQuery) (c : ColumnConfig) : String :=
  match q.asName with
  | some s => if s = "" then c.name else s
  | none => c.name

/-- Python dict values view (`found_names_by_col.values()`), in key
insertion order. -/
def pyDictValues (d : List (ColumnConfig × String)) : List String :=
  d.map Prod.snd

/-- Python dict assignment `d[k] = v`: overwrite in place when the key
is present, else append. -/
def pyDictInsert (d : List (ColumnConfig × String)) (k : ColumnConfig)
    (v : String) : List (ColumnConfig × String) :=
  if d.any fun p => decide (p.1 = k) then
    d.map fun p => if p.1 = k then (p.1, v) else p
  else
    d ++ [(k, v)]

/-- Python dict lookup `d[k]`; the default is never consulted on the
engine's path because every looked-up key was previously inserted. -/
def pyDictGet (d : List (ColumnConfig × String)) (k : ColumnConfig)
    (dflt : String) : String :=
  match d.find? fun p => decide (p.1 = k) with
  | some p => p.2
  | none => dflt

/-- The accumulation loop of `Table.apply_select_queries`: per entry,
resolve the reference, compute the display name, fail when that name is
already among the dict's values, else record the name keyed by the
resolved column config (dict assignment — an existing key is
overwritten) and append the config to `found_columns`. -/
def selectAccum (columns : List ColumnConfig) :
    List SelectQuery → List ColumnConfig → List (ColumnConfig × String) →
    Except SquidErr (List ColumnConfig × List (ColumnConfig × String))
  | [], foundColumns, foundNamesByCol => .ok (foundColumns, foundNamesByCol)
  | q :: rest, foundColumns, foundNamesByCol =>
    match colConfigForCols columns q.column with
    | .error e => .error e
    | .ok colConfig =>
      let colName := selectDisplayName q colConfig
      if (pyDictValues foundNamesByCol).contains colName then
        .error (.duplicateSelectName colName)
      else
        selectAccum columns rest (foundColumns ++ [colConfig])
          (pyDictInsert foundNamesByCol colConfig colName)

/-- Source `Table.filter_rows_by_column_indexes`: positional extraction
`[existing_row[i] for i in indexes_to_include]` for every row
(`getD` models the in-range index access). -/
def Table.filterRowsByColumnIndexes (t : Table) (idxs : List Nat) :
    List (List Value) :=
  t.rows.map fun row => idxs.map fun i => row.getD i (.int 0)

/-- The output-catalog construction of `apply_select_queries`:
`enumerate(found_columns)` with
`_replace(index=i, name=found_names_by_col[col_config])`. -/
def reindexColumns (d : List (ColumnConfig × String)) :
    Nat → List ColumnConfig → List ColumnConfig
  | _, [] => []
  | i, c :: rest =>
    { c with index := i, name := pyDictGet d c c.name } :: reindexColumns d (i + 1) rest

/-- Source `Table.apply_select_queries`. -/
def Table.applySelectQueries (t : Table) (qs : List SelectQuery) :
    Except SquidErr Table :=
  match selectAccum t.columns qs [] [] with
  | .error e => .error e
  | .ok (foundColumns, foundNamesByCol) =>
    .ok { columns := reindexColumns foundNamesByCol 0 foundColumns,
          rows := t.filterRowsByColumnIndexes (foundColumns.map (·.index)) }

/-- Source `Table.merge_tables`: right columns re-indexed by the left
width, appended after the left columns; rows are the Cartesian product
with left-major order and concatenated rows. -/
def Table.mergeTables (one two : Table) : Table :=
  { columns :=
      one.columns ++ two.columns.map fun c =>
        { c with index := c.index + one.columns.length },
    rows :=
      (one.rows.map fun oneRow => two.rows.map fun twoRow => oneRow ++ twoRow).flatten }

/-- The resolution condition as the specification words it: the column's
name equals the reference's name and, when a table qualifier is present
in the reference (Python truthiness: a non-empty string), the column's
table qualifier equals it. -/
def refMatchSpec (ref : ColumnRef) (c : ColumnConfig) : Prop :=
  c.name = ref.name ∧ ∀ q, ref.table = some q → q ≠ "" → c.table = q

/-- Checks that the columns starting at offset `j` carry `index` values
`j, j+1, ...` — so `colsIndexed 0 cols` says positions are exactly
`0..N-1` in catalog order. -/
def colsIndexed : Nat → List ColumnConfig → Bool
  | _, [] => true
  | j, c :: rest => decide (c.index = j) && colsIndexed (j + 1) rest

/-- The Relation invariant of the data model (the part the claims state):
positions are exactly `0..N-1` matching each column's catalog offset, and
every row's length equals the number of columns. -/
def posInv (t : Table) : Bool :=
  colsIndexed 0 t.columns &&
  t.rows.all fun row => decide (row.length = t.columns.length)

/-- Claim C1: the specification requires constructing a column-to-literal
predicate to succeed whenever exactly one side is a column, and in
particular, a literal on the left with a column on the right must build
with `column_side = Right`.  The source instead tests membership of
`'column'` in the string literal `'right'`, so the literal-left /
column-right case falls through to the malformed-expression failure; the
theorem evaluates the constructor on all four side shapes, the first
conjunct being the failing input. -/
theorem c1_constructor_side_analysis :
    (ColumnToLiteralWhere.new .eq (.litInt 1) (.column ⟨none, "a"⟩) =
      .error .malformedWhere) ∧
    (ColumnToLiteralWhere.new .eq (.column ⟨none, "a"⟩) (.litInt 1) =
      .ok ⟨.eq, .column ⟨none, "a"⟩, .litInt 1, .left, .right⟩) ∧
    (ColumnToLiteralWhere.new .eq (.column ⟨none, "a"⟩) (.column ⟨none, "b"⟩) =
      .error .givenColumnToColumn) ∧
    (ColumnToLiteralWhere.new .eq (.litInt 1) (.litStr "x") =
      .error .malformedWhere) := by
  refine ⟨rfl, rfl, rfl, rfl⟩

/-- Claim C2: with select list `a AS x, a AS y` over a one-column relation
(each reference resolves uniquely, display names `x` and `y` distinct),
the specification demands output column names `x` then `y`.  The source
keys its rename dict by the resolved column config, so the second rename
overwrites the first and both output columns are named `y`. -/
theorem c2_rename_overwritten_on_repeated_column :
    Table.applySelectQueries ⟨[⟨"t", "a", .int, 0⟩], [[.int 7]]⟩
      [⟨⟨none, "a"⟩, some "x"⟩, ⟨⟨none, "a"⟩, some "y"⟩] =
    .ok ⟨[⟨"t", "y", .int, 0⟩, ⟨"t", "y", .int, 1⟩], [[.int 7, .int 7]]⟩ := by
  rfl

/-- Claim C3: with select list `a AS x, a AS y, b AS x` over a two-column
relation, entries one and three produce the same display name `x`, so
the specification demands a `DuplicateSelectName` failure.  The source's
duplicate check consults the dict's current values, in which the second
rename has overwritten the first entry's `x`, so the query succeeds —
and even emits two output columns both named `y`. -/
theorem c3_duplicate_name_undetected :
    Table.applySelectQueries ⟨[⟨"t", "a", .int, 0⟩, ⟨"t", "b", .int, 1⟩], [[.int 1, .int 2]]⟩
      [⟨⟨none, "a"⟩, some "x"⟩, ⟨⟨none, "a"⟩, some "y"⟩, ⟨⟨none, "b"⟩, some "x"⟩] =
    .ok ⟨[⟨"t", "y", .int, 0⟩, ⟨"t", "y", .int, 1⟩, ⟨"t", "x", .int, 2⟩],
         [[.int 1, .int 1, .int 2]]⟩ := by
  rfl

/-- Claim C7 counterexample: evaluating `>` against a `Str` column with an
`int`-tagged literal.  The claim states every `>`/`>=`/`<`/`<=` on a
`Str` column fails with `UnsupportedOperator`; the source checks the
literal's tag first and fails with the type-mismatch error instead. -/
theorem c7_str_gt_with_int_literal_is_type_mismatch :
    (Table.applyColumnToLiteralWhereQuery ⟨[⟨"t", "s", .str, 0⟩], [[.str "a"]]⟩
        ⟨.gt, .column ⟨none, "s"⟩, .litInt 5, .left, .right⟩ =
      .error (.typeMismatchLiteral "s" .str (.litInt 5))) ∧
    (SquidErr.typeMismatchLiteral "s" .str (.litInt 5)).isTypeMismatch = true ∧
    (SquidErr.typeMismatchLiteral "s" .str (.litInt 5)).isUnsupportedOp = false := by
  refine ⟨rfl, rfl, rfl⟩

/-- Claim C10: a reference whose table qualifier is the empty string is
resolved exactly like an unqualified reference — the empty string is
falsy in Python, so the qualifier condition is never added and matching
is by name only, with identical outcomes throughout. -/
theorem c10_empty_qualifier_like_none (t : Table) (nm : String) :
    (∀ c, ColumnRef.matchesCol ⟨some "", nm⟩ c = decide (c.name = nm)) ∧
    (∀ c, ColumnRef.matchesCol ⟨some "", nm⟩ c = ColumnRef.matchesCol ⟨none, nm⟩ c) ∧
    colConfigForCols t.columns ⟨some "", nm⟩ = colConfigForCols t.columns ⟨none, nm⟩ := by
  have hm : ∀ c, ColumnRef.matchesCol ⟨some "", nm⟩ c = ColumnRef.matchesCol ⟨none, nm⟩ c := by
    intro c
    simp [ColumnRef.matchesCol]
  refine ⟨fun c => by simp [ColumnRef.matchesCol], hm, ?_⟩
  have hf : t.columns.filter (ColumnRef.matchesCol ⟨some "", nm⟩) =
      t.columns.filter (ColumnRef.matchesCol ⟨none, nm⟩) :=
    List.filter_congr fun c _ => hm c
  simp only [colConfigForCols, hf]

/-- Claim C8: aliasing replaces every column's table qualifier with the
new qualifier while leaving each column's name, declared type and
position — and the whole row sequence — unchanged. -/
theorem c8_alias_replaces_only_qualifier (t : Table) (q : String) :
    (t.applyAsExp q).rows = t.rows ∧
    (t.applyAsExp q).columns.length = t.columns.length ∧
    ∀ j c, t.columns.get? j = some c →
      (t.applyAsExp q).columns.get? j =
        some { table := q, name := c.name, type := c.type, index := c.index } := by
  refine ⟨rfl, by simp [Table.applyAsExp], fun j c h => ?_⟩
  have hcols : (t.applyAsExp q).columns = t.columns.map fun cc =>
      { table := q, name := cc.name, type := cc.type, index := cc.index } := rfl
  rw [hcols, List.get?_map, h]
  rfl

/-- Number of rows of the Cartesian product built by `merge_tables`. -/
theorem crossRows_length (rs bs : List (List Value)) :
    ((rs.map fun oneRow => bs.map fun twoRow => oneRow ++ twoRow).flatten).length =
      rs.length * bs.length := by
  induction rs with
  | nil => simp
  | cons r rs ih => simp [ih, Nat.succ_mul, Nat.add_comm]

/-- Row placement inside the Cartesian product built by `merge_tables`:
row `i` of the left table paired with row `j` of the right table lands
at offset `i * |right| + j`. -/
theorem crossRows_get? (rs bs : List (List Value)) (i j : Nat) (ra rb : List Value)
    (hi : rs.get? i = some ra) (hj : bs.get? j = some rb) :
    ((rs.map fun oneRow => bs.map fun twoRow => oneRow ++ twoRow).flatten).get?
      (i * bs.length + j) = some (ra ++ rb) := by
  induction rs generalizing i with
  | nil => simp at hi
  | cons r rs ih =>
    cases i with
    | zero =>
      simp only [List.get?] at hi
      cases hi
      have hjlt : j < bs.length := by
        rcases List.get?_eq_some.mp hj with ⟨h, _⟩
        exact h
      simp only [List.map_cons, List.flatten_cons, Nat.zero_mul, Nat.zero_add]
      rw [List.get?_append (by simpa using hjlt), List.get?_map, hj]
      rfl
    | succ i =>
      simp only [List.get?] at hi
      have hidx : (i + 1) * bs.length + j =
          (bs.map fun twoRow => r ++ twoRow).length + (i * bs.length + j) := by
        simp [Nat.succ_mul]
        omega
      simp only [List.map_cons, List.flatten_cons]
      rw [hidx, List.get?_append_right (Nat.le_add_right _ _), Nat.add_sub_cancel_left]
      exact ih i hi

/-- Claim C4: `merge` returns exactly `m * n` rows and
`len(A.columns) + len(B.columns)` columns; the columns are `A`'s columns
followed by `B`'s with positions shifted by `len(A.columns)` (names and
qualifiers untouched), and the row at offset `i * n + j` is the
concatenation of `A`'s row `i` with `B`'s row `j`. -/
theorem c4_merge_cartesian (A B : Table) :
    (Table.mergeTables A B).rows.length = A.rows.length * B.rows.length ∧
    (Table.mergeTables A B).columns.length = A.columns.length + B.columns.length ∧
    (Table.mergeTables A B).columns =
      A.columns ++ B.columns.map (fun c =>
        { table := c.table, name := c.name, type := c.type,
          index := c.index + A.columns.length }) ∧
    ∀ i j ra rb, A.rows.get? i = some ra → B.rows.get? j = some rb →
      (Table.mergeTables A B).rows.get? (i * B.rows.length + j) = some (ra ++ rb) := by
  refine ⟨crossRows_length A.rows B.rows, by simp [Table.mergeTables], rfl,
    fun i j ra rb hi hj => crossRows_get? A.rows B.rows i j ra rb hi hj⟩

/-- Claim C6: resolution matches columns by name, plus qualifier equality
exactly when the reference carries a (truthy) qualifier; zero matches
fail with the not-found error, several matches fail with the ambiguity
error naming every matching table qualifier, and a unique match is
returned. -/
theorem c6_resolution_outcomes (t : Table) (ref : ColumnRef) :
    (∀ c, ref.matchesCol c = true ↔ refMatchSpec ref c) ∧
    (t.columns.filter ref.matchesCol = [] →
      t.colConfigByColumnRef ref = .error .columnNotFound) ∧
    (∀ c, t.columns.filter ref.matchesCol = [c] →
      t.colConfigByColumnRef ref = .ok c) ∧
    (2 ≤ (t.columns.filter ref.matchesCol).length →
      t.colConfigByColumnRef ref = .error (.ambiguousColumn
        (String.intercalate "|" ((t.columns.filter ref.matchesCol).map (·.table))))) := by
  refine ⟨?_, ?_, ?_, ?_⟩
  · intro c
    unfold ColumnRef.matchesCol refMatchSpec
    cases htab : ref.table with
    | none => simp
    | some q =>
      by_cases hq : q = ""
      · subst hq
        simp
      · simp only [Bool.and_eq_true, decide_eq_true_eq, if_neg hq]
        constructor
        · rintro ⟨h1, h2⟩
          exact ⟨h2, fun q' hq' _ => by cases hq'; exact h1⟩
        · rintro ⟨h2, h1⟩
          exact ⟨h1 q rfl hq, h2⟩
  · intro h
    simp [Table.colConfigByColumnRef, colConfigForCols, h]
  · intro c h
    simp [Table.colConfigByColumnRef, colConfigForCols, h]
  · intro h
    rcases hf : t.columns.filter ref.matchesCol with _ | ⟨c1, _ | ⟨c2, rest⟩⟩
    · rw [hf] at h; simp at h
    · rw [hf] at h; simp at h
    · simp [Table.colConfigByColumnRef, colConfigForCols, hf]

/-- Applying either where-query variant is: validate against the catalog
only, then stably filter the rows. -/
theorem applyWhereQuery_eq_whereTest (t : Table) (w : WhereQuery) :
    t.applyWhereQuery w = (whereTest t.columns w).map
      (fun p => { columns := t.columns, rows := t.rows.filter p }) := by
  cases w <;> rfl

/-- Claim C5: a successful filter keeps a subsequence of the input rows in
their original order, and two successful filters commute — each order of
application succeeds and yields exactly the rows satisfying both
predicates (their logical AND). -/
theorem c5_filter_stable_and_commutes (R : Table) (q1 q2 : WhereQuery) (R1 R2 : Table)
    (h1 : R.applyWhereQuery q1 = .ok R1) (h2 : R.applyWhereQuery q2 = .ok R2) :
    R1.rows.Sublist R.rows ∧
    ∃ p1 p2 R12 R21,
      whereTest R.columns q1 = .ok p1 ∧
      whereTest R.columns q2 = .ok p2 ∧
      R1.applyWhereQuery q2 = .ok R12 ∧
      R2.applyWhereQuery q1 = .ok R21 ∧
      R12.rows = R21.rows ∧
      R12.rows = R.rows.filter (fun row => p1 row && p2 row) ∧
      R12.columns = R.columns := by
  rw [applyWhereQuery_eq_whereTest] at h1 h2
  rcases hw1 : whereTest R.columns q1 with e1 | p1
  · rw [hw1] at h1; exact absurd h1 (by simp [Except.map])
  rcases hw2 : whereTest R.columns q2 with e2 | p2
  · rw [hw2] at h2; exact absurd h2 (by simp [Except.map])
  rw [hw1] at h1
  rw [hw2] at h2
  have hR1 : R1 = { columns := R.columns, rows := R.rows.filter p1 } := by
    simpa [Except.map] using h1.symm
  have hR2 : R2 = { columns := R.columns, rows := R.rows.filter p2 } := by
    simpa [Except.map] using h2.symm
  subst hR1
  subst hR2
  refine ⟨List.filter_sublist R.rows, p1, p2,
    ⟨R.columns, (R.rows.filter p1).filter p2⟩,
    ⟨R.columns, (R.rows.filter p2).filter p1⟩, rfl, rfl, ?_, ?_, ?_, ?_, rfl⟩
  · rw [applyWhereQuery_eq_whereTest]
    show (whereTest R.columns q2).map _ = _
    rw [hw2]
    rfl
  · rw [applyWhereQuery_eq_whereTest]
    show (whereTest R.columns q1).map _ = _
    rw [hw1]
    rfl
  · show (R.rows.filter p1).filter p2 = (R.rows.filter p2).filter p1
    rw [List.filter_filter, List.filter_filter]
    exact List.filter_congr fun a _ => Bool.and_comm (p2 a) (p1 a)
  · show (R.rows.filter p1).filter p2 = R.rows.filter fun row => p1 row && p2 row
    rw [List.filter_filter]
    exact List.filter_congr fun a _ => Bool.and_comm (p2 a) (p1 a)

/-- Claim C7 (amended): the guards run with the type check ahead of the
operator check.  For a column-to-literal predicate whose column
resolves: a literal tagged differently from the column's declared type
fails with the type-mismatch error; when the literal matches, an order
operator on a `Str` column fails with the unsupported-operator error.
For a column-to-column predicate whose references resolve: differing
declared types fail with the type-mismatch error; on two `Str` columns
an order operator fails with the unsupported-operator error.  Every such
failure returns an error, never a filtered relation. -/
theorem c7_type_and_operator_guards (t : Table) :
    (∀ (w : ColumnToLiteralWhere) (ref : ColumnRef) (c : ColumnConfig),
      w.columnTerm = .column ref →
      colConfigForCols t.columns ref = .ok c →
      w.literalTerm.getLit c.type = none →
      t.applyColumnToLiteralWhereQuery w =
        .error (.typeMismatchLiteral c.name c.type w.literalTerm)) ∧
    (∀ (w : ColumnToLiteralWhere) (ref : ColumnRef) (c : ColumnConfig) (v : Value),
      w.columnTerm = .column ref →
      colConfigForCols t.columns ref = .ok c →
      c.type = .str →
      w.literalTerm.getLit c.type = some v →
      (w.op = .gt ∨ w.op = .ge ∨ w.op = .lt ∨ w.op = .le) →
      t.applyColumnToLiteralWhereQuery w =
        .error (.unsupportedOperator w.op .str)) ∧
    (∀ (w : ColumnToColumnWhere) (lref rref : ColumnRef) (lc rc : ColumnConfig),
      w.left = .column lref → w.right = .column rref →
      colConfigForCols t.columns lref = .ok lc →
      colConfigForCols t.columns rref = .ok rc →
      lc.type ≠ rc.type →
      t.applyColumnToColumnWhereQuery w =
        .error (.typeMismatchColumns lc.name lc.type rc.name rc.type)) ∧
    (∀ (w : ColumnToColumnWhere) (lref rref : ColumnRef) (lc rc : ColumnConfig),
      w.left = .column lref → w.right = .column rref →
      colConfigForCols t.columns lref = .ok lc →
      colConfigForCols t.columns rref = .ok rc →
      lc.type = .str → rc.type = .str →
      (w.op = .gt ∨ w.op = .ge ∨ w.op = .lt ∨ w.op = .le) →
      t.applyColumnToColumnWhereQuery w =
        .error (.unsupportedOperator w.op .str)) := by
  refine ⟨?_, ?_, ?_, ?_⟩
  · intro w ref c hterm hres hlit
    simp only [Table.applyColumnToLiteralWhereQuery, literalWhereTest, hterm, hres, hlit,
      Except.map]
  · intro w ref c v hterm hres hty hlit hop
    have hcon : (supportedOps ColType.str).contains w.op = false := by
      rcases hop with h | h | h | h <;> rw [h] <;> rfl
    rw [hty] at hlit
    simp only [Table.applyColumnToLiteralWhereQuery, literalWhereTest, hterm, hres, hlit,
      hty, hcon, Bool.false_eq_true, if_false, Except.map]
  · intro w lref rref lc rc hl hr hresl hresr hty
    simp only [Table.applyColumnToColumnWhereQuery, columnColumnWhereTest, hl, hr,
      hresl, hresr, if_neg hty, Except.map]
  · intro w lref rref lc rc hl hr hresl hresr htyl htyr hop
    have hcon : (supportedOps ColType.str).contains w.op = false := by
      rcases hop with h | h | h | h <;> rw [h] <;> rfl
    simp only [Table.applyColumnToColumnWhereQuery, columnColumnWhereTest, hl, hr,
      hresl, hresr, htyl, htyr, hcon, Bool.false_eq_true, if_false, Except.map]
    simp

/-- `colsIndexed` splits over an append, the right block starting where
the left block's length ends. -/
theorem colsIndexed_append (xs ys : List ColumnConfig) (j : Nat) :
    colsIndexed j (xs ++ ys) = (colsIndexed j xs && colsIndexed (j + xs.length) ys) := by
  induction xs generalizing j with
  | nil => simp [colsIndexed]
  | cons c xs ih =>
    simp [colsIndexed, ih (j + 1), Bool.and_assoc, Nat.add_right_comm j 1, Nat.add_assoc]

/-- Shifting every `index` by `m` shifts the base of `colsIndexed` by `m`
(the re-indexing `merge_tables` applies to the right table's columns). -/
theorem colsIndexed_shiftBy (cs : List ColumnConfig) (m : Nat) :
    ∀ j, colsIndexed j cs = true →
      colsIndexed (j + m) (cs.map fun c => { c with index := c.index + m }) = true := by
  induction cs with
  | nil => intro j _; rfl
  | cons c cs ih =>
    intro j h
    rw [colsIndexed, Bool.and_eq_true, decide_eq_true_eq] at h
    rw [List.map_cons, colsIndexed, Bool.and_eq_true, decide_eq_true_eq]
    exact ⟨by rw [h.1], by rw [Nat.add_right_comm]; exact ih (j + 1) h.2⟩

/-- Replacing the table qualifier leaves `colsIndexed` unchanged
(aliasing does not touch positions). -/
theorem colsIndexed_mapTable (cs : List ColumnConfig) (q : String) :
    ∀ j, colsIndexed j (cs.map fun c => { c with table := q }) = colsIndexed j cs := by
  induction cs with
  | nil => intro j; rfl
  | cons c cs ih => intro j; rw [List.map_cons, colsIndexed, colsIndexed, ih (j + 1)]

/-- The projection's output catalog has one column per accumulated entry. -/
theorem reindexColumns_length (d : List (ColumnConfig × String)) :
    ∀ i cs, (reindexColumns d i cs).length = List.length cs := by
  intro i cs
  induction cs generalizing i with
  | nil => rfl
  | cons c cs ih => rw [reindexColumns, List.length_cons, List.length_cons, ih (i + 1)]

/-- The projection's output catalog is freshly indexed `i, i+1, ...` by
construction (source: `enumerate`), so positions are `0..k-1`. -/
theorem colsIndexed_reindex (d : List (ColumnConfig × String)) :
    ∀ i cs, colsIndexed i (reindexColumns d i cs) = true := by
  intro i cs
  induction cs generalizing i with
  | nil => rfl
  | cons c cs ih =>
    rw [reindexColumns, colsIndexed, Bool.and_eq_true, decide_eq_true_eq]
    exact ⟨rfl, ih (i + 1)⟩

/-- Claim C9: all five algebra operations preserve the Relation
invariant — positions exactly `0..N-1` matching catalog offsets, and
every row as long as the catalog — whenever their input relation(s)
satisfy it (projection and the filters additionally assumed to
succeed). -/
theorem c9_operations_preserve_invariant :
    (∀ A B : Table, posInv A = true → posInv B = true →
      posInv (Table.mergeTables A B) = true) ∧
    (∀ (t : Table) (w : ColumnToLiteralWhere) (t' : Table), posInv t = true →
      t.applyColumnToLiteralWhereQuery w = .ok t' → posInv t' = true) ∧
    (∀ (t : Table) (w : ColumnToColumnWhere) (t' : Table), posInv t = true →
      t.applyColumnToColumnWhereQuery w = .ok t' → posInv t' = true) ∧
    (∀ (t : Table) (qs : List SelectQuery) (t' : Table), posInv t = true →
      t.applySelectQueries qs = .ok t' → posInv t' = true) ∧
    (∀ (t : Table) (q : String), posInv t = true →
      posInv (t.applyAsExp q) = true) := by
  refine ⟨?_, ?_, ?_, ?_, ?_⟩
  · intro A B hA hB
    rw [posInv, Bool.and_eq_true] at hA hB ⊢
    obtain ⟨hAc, hAr⟩ := hA
    obtain ⟨hBc, hBr⟩ := hB
    constructor
    · show colsIndexed 0 (A.columns ++ B.columns.map fun c =>
        { c with index := c.index + A.columns.length }) = true
      rw [colsIndexed_append, Bool.and_eq_true]
      refine ⟨hAc, ?_⟩
      simpa using colsIndexed_shiftBy B.columns A.columns.length 0 hBc
    · rw [List.all_eq_true]
      intro row hrow
      rcases List.mem_flatten.mp hrow with ⟨l, hl, hrl⟩
      rcases List.mem_map.mp hl with ⟨r1, hr1, rfl⟩
      rcases List.mem_map.mp hrl with ⟨r2, hr2, rfl⟩
      have h1 := List.all_eq_true.mp hAr r1 hr1
      have h2 := List.all_eq_true.mp hBr r2 hr2
      rw [decide_eq_true_eq] at h1 h2
      show decide ((r1 ++ r2).length = (Table.mergeTables A B).columns.length) = true
      rw [decide_eq_true_eq, List.length_append, h1, h2]
      simp [Table.mergeTables]
  · intro t w t' hinv hok
    rcases hw : literalWhereTest t.columns w with e | p
    · rw [Table.applyColumnToLiteralWhereQuery, hw] at hok
      exact absurd hok (by simp [Except.map])
    · rw [Table.applyColumnToLiteralWhereQuery, hw] at hok
      have ht' : t' = ⟨t.columns, t.rows.filter p⟩ := by
        simpa [Except.map] using hok.symm
      subst ht'
      rw [posInv, Bool.and_eq_true] at hinv ⊢
      refine ⟨hinv.1, ?_⟩
      rw [List.all_eq_true]
      intro row hrow
      exact List.all_eq_true.mp hinv.2 row (List.mem_of_mem_filter hrow)
  · intro t w t' hinv hok
    rcases hw : columnColumnWhereTest t.columns w with e | p
    · rw [Table.applyColumnToColumnWhereQuery, hw] at hok
      exact absurd hok (by simp [Except.map])
    · rw [Table.applyColumnToColumnWhereQuery, hw] at hok
      have ht' : t' = ⟨t.columns, t.rows.filter p⟩ := by
        simpa [Except.map] using hok.symm
      subst ht'
      rw [posInv, Bool.and_eq_true] at hinv ⊢
      refine ⟨hinv.1, ?_⟩
      rw [List.all_eq_true]
      intro row hrow
      exact List.all_eq_true.mp hinv.2 row (List.mem_of_mem_filter hrow)
  · intro t qs t' _ hok
    rcases hsa : selectAccum t.columns qs [] [] with e | ⟨found, d⟩
    · simp only [Table.applySelectQueries, hsa] at hok
      exact absurd hok (by simp)
    · simp only [Table.applySelectQueries, hsa, Except.ok.injEq] at hok
      subst hok
      rw [posInv, Bool.and_eq_true]
      refine ⟨colsIndexed_reindex d 0 found, ?_⟩
      rw [List.all_eq_true]
      intro row hrow
      rcases List.mem_map.mp hrow with ⟨r0, _, rfl⟩
      rw [decide_eq_true_eq, List.length_map, List.length_map, reindexColumns_length]
  · intro t q hinv
    rw [posInv, Bool.and_eq_true] at hinv ⊢
    refine ⟨?_, ?_⟩
    · show colsIndexed 0 (t.columns.map fun c => { c with table := q }) = true
      rw [colsIndexed_mapTable t.columns q 0]
      exact hinv.1
    · rw [List.all_eq_true]
      intro row hrow
      have h := List.all_eq_true.mp hinv.2 row hrow
      rw [decide_eq_true_eq] at h
      have hlen : (t.applyAsExp q).columns.length = t.columns.length := by
        simp [Table.applyAsExp]
      rw [decide_eq_true_eq, hlen]
      exact h

/-- Witness for the merge claim: merging a two-row table with a
three-row table places left row 1 with right row 2 at offset
`1 * 3 + 2 = 5`, carrying the concatenated values. -/
theorem c4_merge_cartesian_witness :
    (Table.mergeTables ⟨[⟨"a", "x", .int, 0⟩], [[.int 1], [.int 2]]⟩
        ⟨[⟨"b", "y", .int, 0⟩], [[.int 10], [.int 20], [.int 30]]⟩).rows.get? 5 =
      some [.int 2, .int 30] :=
  (c4_merge_cartesian ⟨[⟨"a", "x", .int, 0⟩], [[.int 1], [.int 2]]⟩
      ⟨[⟨"b", "y", .int, 0⟩], [[.int 10], [.int 20], [.int 30]]⟩).2.2.2
    1 2 [.int 2] [.int 30] rfl rfl

/-- Witness for the filter claim: a concrete table filtered by a
successful column-to-literal predicate keeps a subsequence of its rows. -/
theorem c5_filter_stable_and_commutes_witness :
    (Table.mk [⟨"t", "a", .int, 0⟩, ⟨"t", "b", .int, 1⟩]
        [[.int 3, .int 1], [.int 5, .int 9], [.int 2, .int 2]]).rows.Sublist
      (Table.mk [⟨"t", "a", .int, 0⟩, ⟨"t", "b", .int, 1⟩]
        [[.int 1, .int 2], [.int 3, .int 1], [.int 5, .int 9], [.int 2, .int 2]]).rows :=
  (c5_filter_stable_and_commutes
    ⟨[⟨"t", "a", .int, 0⟩, ⟨"t", "b", .int, 1⟩],
      [[.int 1, .int 2], [.int 3, .int 1], [.int 5, .int 9], [.int 2, .int 2]]⟩
    (.columnToLiteral ⟨.gt, .column ⟨none, "a"⟩, .litInt 1, .left, .right⟩)
    (.columnToColumn ⟨.le, .column ⟨none, "a"⟩, .column ⟨none, "b"⟩⟩)
    ⟨[⟨"t", "a", .int, 0⟩, ⟨"t", "b", .int, 1⟩],
      [[.int 3, .int 1], [.int 5, .int 9], [.int 2, .int 2]]⟩
    ⟨[⟨"t", "a", .int, 0⟩, ⟨"t", "b", .int, 1⟩],
      [[.int 1, .int 2], [.int 5, .int 9], [.int 2, .int 2]]⟩
    rfl rfl).1

/-- Witness for the resolution claim: an unqualified reference matching
two columns from tables `a` and `b` fails naming both qualifiers, and a
uniquely matching reference resolves. -/
theorem c6_resolution_outcomes_witness :
    (Table.colConfigByColumnRef ⟨[⟨"a", "v", .int, 0⟩, ⟨"b", "v", .int, 1⟩], []⟩
        ⟨none, "v"⟩ = .error (.ambiguousColumn "a|b")) ∧
    (Table.colConfigByColumnRef ⟨[⟨"a", "v", .int, 0⟩, ⟨"b", "w", .int, 1⟩], []⟩
        ⟨none, "w"⟩ = .ok ⟨"b", "w", .int, 1⟩) ∧
    (Table.colConfigByColumnRef ⟨[⟨"a", "v", .int, 0⟩], []⟩
        ⟨none, "missing"⟩ = .error .columnNotFound) :=
  ⟨(c6_resolution_outcomes ⟨[⟨"a", "v", .int, 0⟩, ⟨"b", "v", .int, 1⟩], []⟩
      ⟨none, "v"⟩).2.2.2 (by decide),
   (c6_resolution_outcomes ⟨[⟨"a", "v", .int, 0⟩, ⟨"b", "w", .int, 1⟩], []⟩
      ⟨none, "w"⟩).2.2.1 ⟨"b", "w", .int, 1⟩ rfl,
   (c6_resolution_outcomes ⟨[⟨"a", "v", .int, 0⟩], []⟩
      ⟨none, "missing"⟩).2.1 rfl⟩

/-- Witness for the guard claim: all four guard situations at concrete
predicates over one-table catalogs. -/
theorem c7_type_and_operator_guards_witness :
    (Table.applyColumnToLiteralWhereQuery ⟨[⟨"t", "n", .int, 0⟩], []⟩
        ⟨.eq, .column ⟨none, "n"⟩, .litStr "z", .left, .right⟩ =
      .error (.typeMismatchLiteral "n" .int (.litStr "z"))) ∧
    (Table.applyColumnToLiteralWhereQuery ⟨[⟨"t", "s", .str, 0⟩], []⟩
        ⟨.gt, .column ⟨none, "s"⟩, .litStr "z", .left, .right⟩ =
      .error (.unsupportedOperator .gt .str)) ∧
    (Table.applyColumnToColumnWhereQuery ⟨[⟨"t", "n", .int, 0⟩, ⟨"t", "s", .str, 1⟩], []⟩
        ⟨.eq, .column ⟨none, "n"⟩, .column ⟨none, "s"⟩⟩ =
      .error (.typeMismatchColumns "n" .int "s" .str)) ∧
    (Table.applyColumnToColumnWhereQuery ⟨[⟨"t", "s", .str, 0⟩, ⟨"t", "u", .str, 1⟩], []⟩
        ⟨.lt, .column ⟨none, "s"⟩, .column ⟨none, "u"⟩⟩ =
      .error (.unsupportedOperator .lt .str)) :=
  ⟨(c7_type_and_operator_guards ⟨[⟨"t", "n", .int, 0⟩], []⟩).1
      ⟨.eq, .column ⟨none, "n"⟩, .litStr "z", .left, .right⟩
      ⟨none, "n"⟩ ⟨"t", "n", .int, 0⟩ rfl rfl rfl,
   (c7_type_and_operator_guards ⟨[⟨"t", "s", .str, 0⟩], []⟩).2.1
      ⟨.gt, .column ⟨none, "s"⟩, .litStr "z", .left, .right⟩
      ⟨none, "s"⟩ ⟨"t", "s", .str, 0⟩ (.str "z") rfl rfl rfl rfl (Or.inl rfl),
   (c7_type_and_operator_guards ⟨[⟨"t", "n", .int, 0⟩, ⟨"t", "s", .str, 1⟩], []⟩).2.2.1
      ⟨.eq, .column ⟨none, "n"⟩, .column ⟨none, "s"⟩⟩
      ⟨none, "n"⟩ ⟨none, "s"⟩ ⟨"t", "n", .int, 0⟩ ⟨"t", "s", .str, 1⟩
      rfl rfl rfl rfl (by decide),
   (c7_type_and_operator_guards ⟨[⟨"t", "s", .str, 0⟩, ⟨"t", "u", .str, 1⟩], []⟩).2.2.2
      ⟨.lt, .column ⟨none, "s"⟩, .column ⟨none, "u"⟩⟩
      ⟨none, "s"⟩ ⟨none, "u"⟩ ⟨"t", "s", .str, 0⟩ ⟨"t", "u", .str, 1⟩
      rfl rfl rfl rfl rfl rfl (Or.inr (Or.inr (Or.inl rfl)))⟩

/-- Witness for the alias claim: the aliased catalog keeps name, type and
position while taking the new qualifier. -/
theorem c8_alias_replaces_only_qualifier_witness :
    (Table.applyAsExp ⟨[⟨"t", "a", .int, 0⟩], [[.int 1]]⟩ "z").columns.get? 0 =
      some ⟨"z", "a", .int, 0⟩ :=
  (c8_alias_replaces_only_qualifier ⟨[⟨"t", "a", .int, 0⟩], [[.int 1]]⟩ "z").2.2
    0 ⟨"t", "a", .int, 0⟩ rfl

/-- Witness for the invariant claim: all five operations at concrete
invariant-satisfying tables. -/
theorem c9_operations_preserve_invariant_witness :
    posInv (Table.mergeTables ⟨[⟨"a", "x", .int, 0⟩], [[.int 1], [.int 2]]⟩
      ⟨[⟨"b", "y", .int, 0⟩], [[.int 10], [.int 20], [.int 30]]⟩) = true ∧
    posInv (Table.mk [⟨"t", "a", .int, 0⟩, ⟨"t", "b", .int, 1⟩]
      [[.int 3, .int 1]]) = true ∧
    posInv (Table.mk [⟨"t", "a", .int, 0⟩, ⟨"t", "b", .int, 1⟩]
      [[.int 1, .int 2]]) = true ∧
    posInv (Table.mk [⟨"t", "z", .int, 0⟩] [[.int 2], [.int 1]]) = true ∧
    posInv (Table.applyAsExp ⟨[⟨"t", "a", .int, 0⟩, ⟨"t", "b", .int, 1⟩],
      [[.int 1, .int 2], [.int 3, .int 1]]⟩ "q") = true :=
  ⟨c9_operations_preserve_invariant.1
      ⟨[⟨"a", "x", .int, 0⟩], [[.int 1], [.int 2]]⟩
      ⟨[⟨"b", "y", .int, 0⟩], [[.int 10], [.int 20], [.int 30]]⟩ rfl rfl,
   c9_operations_preserve_invariant.2.1
      ⟨[⟨"t", "a", .int, 0⟩, ⟨"t", "b", .int, 1⟩],
        [[.int 1, .int 2], [.int 3, .int 1]]⟩
      ⟨.gt, .column ⟨none, "a"⟩, .litInt 1, .left, .right⟩
      ⟨[⟨"t", "a", .int, 0⟩, ⟨"t", "b", .int, 1⟩], [[.int 3, .int 1]]⟩ rfl rfl,
   c9_operations_preserve_invariant.2.2.1
      ⟨[⟨"t", "a", .int, 0⟩, ⟨"t", "b", .int, 1⟩],
        [[.int 1, .int 2], [.int 3, .int 1]]⟩
      ⟨.le, .column ⟨none, "a"⟩, .column ⟨none, "b"⟩⟩
      ⟨[⟨"t", "a", .int, 0⟩, ⟨"t", "b", .int, 1⟩], [[.int 1, .int 2]]⟩ rfl rfl,
   c9_operations_preserve_invariant.2.2.2.1
      ⟨[⟨"t", "a", .int, 0⟩, ⟨"t", "b", .int, 1⟩],
        [[.int 1, .int 2], [.int 3, .int 1]]⟩
      [⟨⟨none, "b"⟩, some "z"⟩]
      ⟨[⟨"t", "z", .int, 0⟩], [[.int 2], [.int 1]]⟩ rfl rfl,
   c9_operations_preserve_invariant.2.2.2.2
      ⟨[⟨"t", "a", .int, 0⟩, ⟨"t", "b", .int, 1⟩],
        [[.int 1, .int 2], [.int 3, .int 1]]⟩ "q" rfl⟩
